import Mathlib

/-!
Verification of the photo-enhancer pixel filter engine.

The TypeScript source operates on `ImageData` whose `data` field is a
`Uint8ClampedArray`: every assignment `d[i] = x` stores
`ToUint8Clamp(x)`, i.e. the value clamped to `[0, 255]` and rounded to
the nearest integer with ties going to the even integer.  We model the
numeric computations exactly over `ℚ` (the source's double arithmetic is
exact on the small decimal constants and integer channel values involved
in the claims) and every channel write goes through `toUint8Clamp`.
A pixel is a record of four natural-number channels; a buffer carries a
width, a height and a flat, row-major list of pixels (one list entry per
4-byte RGBA group of the source array).
-/

namespace PhotoEnhancer

/-- `Math.round` of JavaScript: round half away from zero toward `+∞`,
i.e. `⌊x + 1/2⌋`. -/
def jsRound (x : ℚ) : ℤ := ⌊x + 1/2⌋

/-- The `ToUint8Clamp` conversion performed by every store into a
`Uint8ClampedArray`: clamp to `[0, 255]`, then round to the nearest
integer, ties to even. -/
def toUint8Clamp (x : ℚ) : ℕ :=
  if x ≤ 0 then 0
  else if 255 ≤ x then 255
  else
    let f : ℤ := ⌊x⌋
    if (f : ℚ) + 1/2 < x then (f + 1).toNat
    else if x < (f : ℚ) + 1/2 then f.toNat
    else if f % 2 = 0 then f.toNat else (f + 1).toNat

/-- One RGBA sample of the buffer. -/
structure Pixel where
  r : ℕ
  g : ℕ
  b : ℕ
  a : ℕ
  deriving DecidableEq, Repr

/-- An `ImageData`: width, height and the flat pixel list (row-major,
index `y * width + x`). -/
structure Buffer where
  width : ℕ
  height : ℕ
  data : List Pixel
  deriving DecidableEq, Repr

/-- Store three rational values into the R, G, B channels of a pixel
through the `Uint8ClampedArray` conversion, leaving alpha untouched. -/
def writeRGB (p : Pixel) (r g b : ℚ) : Pixel :=
  ⟨toUint8Clamp r, toUint8Clamp g, toUint8Clamp b, p.a⟩

/-! ## colorUtils.ts -/

/-- `RGBtoHSV(r, g, b)` from `colorUtils.ts`: divide each channel by 255,
take max/min, and compute hue by the max-channel branch in the fixed
order R, G, B (the JS `switch` on strict equality). -/
def RGBtoHSV (r0 g0 b0 : ℚ) : ℚ × ℚ × ℚ :=
  let r := r0 / 255
  let g := g0 / 255
  let b := b0 / 255
  let mx := max r (max g b)
  let mn := min r (min g b)
  let v := mx
  let d := mx - mn
  let s := if mx = 0 then 0 else d / mx
  let h :=
    if mx = mn then 0
    else if mx = r then ((g - b) / d + (if g < b then 6 else 0)) / 6
    else if mx = g then ((b - r) / d + 2) / 6
    else ((r - g) / d + 4) / 6
  (h, s, v)

/-- `HSVtoRGB(h, s, v)` from `colorUtils.ts`: sector method with
`i = Math.floor(h*6)` and a `switch` on `i % 6`.  The JS `%` is the
truncated remainder (`Int.tmod`); a negative remainder matches no case
and leaves the initial `r = g = b = 0`. -/
def HSVtoRGB (h s v : ℚ) : ℚ × ℚ × ℚ :=
  let i : ℤ := ⌊h * 6⌋
  let f : ℚ := h * 6 - (i : ℚ)
  let p := v * (1 - s)
  let q := v * (1 - f * s)
  let t := v * (1 - (1 - f) * s)
  let m := Int.tmod i 6
  let rgb : ℚ × ℚ × ℚ :=
    if m = 0 then (v, t, p)
    else if m = 1 then (q, v, p)
    else if m = 2 then (p, v, t)
    else if m = 3 then (p, q, v)
    else if m = 4 then (t, p, v)
    else if m = 5 then (v, p, q)
    else (0, 0, 0)
  (rgb.1 * 255, rgb.2.1 * 255, rgb.2.2 * 255)

/-- `clamp(value, min, max)` from `colorUtils.ts`. -/
def clampValue (value mn mx : ℚ) : ℚ := min (max value mn) mx

/-! ## filters.ts: per-pixel operators -/

/-- `grayscale(pixels)`: BT.709 luma written to all three channels. -/
def grayscale (pixels : Buffer) : Buffer :=
  { pixels with data := pixels.data.map (fun p =>
      let avg : ℚ := 0.2126 * p.r + 0.7152 * p.g + 0.0722 * p.b
      writeRGB p avg avg avg) }

/-- `sepia(pixels, adj)`: the sepia matrix scaled by `adj`, with the three
source channels read before any write. -/
def sepia (pixels : Buffer) (adj : ℚ) : Buffer :=
  { pixels with data := pixels.data.map (fun p =>
      let r : ℚ := p.r
      let g : ℚ := p.g
      let b : ℚ := p.b
      writeRGB p
        ((r * (1 - 0.607 * adj)) + (g * 0.769 * adj) + (b * 0.189 * adj))
        ((r * 0.349 * adj) + (g * (1 - 0.314 * adj)) + (b * 0.168 * adj))
        ((r * 0.272 * adj) + (g * 0.534 * adj) + (b * (1 - 0.869 * adj)))) }

/-- `invert(pixels)`: each channel becomes `255 - channel`. -/
def invert (pixels : Buffer) : Buffer :=
  { pixels with data := pixels.data.map (fun p =>
      writeRGB p (255 - (p.r : ℚ)) (255 - (p.g : ℚ)) (255 - (p.b : ℚ))) }

/-- `brightness(pixels, adj)`: the parameter is first clamped into
`[-1, 1]`, then `Math.round(255 * adj)` is added to every channel with an
explicit `[0, 255]` clamp. -/
def brightness (pixels : Buffer) (adj : ℚ) : Buffer :=
  let adj' := max (-1) (min 1 adj)
  let adjValue : ℤ := jsRound (255 * adj')
  { pixels with data := pixels.data.map (fun p =>
      writeRGB p
        (max 0 (min 255 ((p.r : ℚ) + adjValue)))
        (max 0 (min 255 ((p.g : ℚ) + adjValue)))
        (max 0 (min 255 ((p.b : ℚ) + adjValue)))) }

/-- `hueSaturation(pixels, adj)`: convert to HSV, scale `s` by `adj`,
clamp `s` into `[0, 1]`, convert back. -/
def hueSaturation (pixels : Buffer) (adj : ℚ) : Buffer :=
  { pixels with data := pixels.data.map (fun p =>
      let hsv := RGBtoHSV p.r p.g p.b
      let s1 := max 0 (min 1 (hsv.2.1 * adj))
      let rgb := HSVtoRGB hsv.1 s1 hsv.2.2
      writeRGB p rgb.1 rgb.2.1 rgb.2.2) }

/-- `saturation(pixels, adj)`: the parameter is clamped from below at
`-1`, then each channel moves away from the BT.601 gray value. -/
def saturation (pixels : Buffer) (adj : ℚ) : Buffer :=
  let adj' := max (-1) adj
  { pixels with data := pixels.data.map (fun p =>
      let gray : ℚ := 0.2989 * p.r + 0.5870 * p.g + 0.1140 * p.b
      writeRGB p
        (max 0 (min 255 (-gray * adj' + (p.r : ℚ) * (1 + adj'))))
        (max 0 (min 255 (-gray * adj' + (p.g : ℚ) * (1 + adj'))))
        (max 0 (min 255 (-gray * adj' + (p.b : ℚ) * (1 + adj'))))) }

/-- The denominator `255 * (259 - adjValue)` of the contrast factor,
where `adjValue = adj * 255`. -/
def contrastDenom (adj : ℚ) : ℚ := 255 * (259 - adj * 255)

/-- `contrast(pixels, adj)`: the standard 259/255 contrast curve
`factor * (channel - 128) + 128` with an explicit `[0, 255]` clamp. -/
def contrast (pixels : Buffer) (adj : ℚ) : Buffer :=
  let adjValue := adj * 255
  let factor := (259 * (adjValue + 255)) / contrastDenom adj
  { pixels with data := pixels.data.map (fun p =>
      writeRGB p
        (max 0 (min 255 (factor * ((p.r : ℚ) - 128) + 128)))
        (max 0 (min 255 (factor * ((p.g : ℚ) - 128) + 128)))
        (max 0 (min 255 (factor * ((p.b : ℚ) - 128) + 128)))) }

/-- `colorFilter(pixels, rgbColor)`: linear blend of each channel toward
the flat overlay color; `rgbColor` is `[r, g, b, adj]`. -/
def colorFilter (pixels : Buffer) (rgbColor : ℚ × ℚ × ℚ × ℚ) : Buffer :=
  let adj := rgbColor.2.2.2
  { pixels with data := pixels.data.map (fun p =>
      writeRGB p
        ((p.r : ℚ) - ((p.r : ℚ) - rgbColor.1) * adj)
        ((p.g : ℚ) - ((p.g : ℚ) - rgbColor.2.1) * adj)
        ((p.b : ℚ) - ((p.b : ℚ) - rgbColor.2.2.1) * adj)) }

/-- `rgbAdjust(pixels, rgbAdj)`: per-channel multiplier with explicit
clamp. -/
def rgbAdjust (pixels : Buffer) (m : ℚ × ℚ × ℚ) : Buffer :=
  { pixels with data := pixels.data.map (fun p =>
      writeRGB p
        (max 0 (min 255 ((p.r : ℚ) * m.1)))
        (max 0 (min 255 ((p.g : ℚ) * m.2.1)))
        (max 0 (min 255 ((p.b : ℚ) * m.2.2)))) }

/-- The accumulated convolution sum for one output position and one
channel: the nested `cy`/`cx` loop of `convolute`, where a source
position outside the image contributes nothing. -/
def convAccum (d : List Pixel) (sw sh : ℕ) (weights : List ℚ) (side : ℕ)
    (x y : ℕ) (ch : Pixel → ℕ) : ℚ :=
  ((List.range side).map (fun (cy : ℕ) =>
    ((List.range side).map (fun (cx : ℕ) =>
      let scy : ℤ := (y : ℤ) + cy - (side / 2 : ℕ)
      let scx : ℤ := (x : ℤ) + cx - (side / 2 : ℕ)
      if 0 ≤ scy ∧ scy < (sh : ℤ) ∧ 0 ≤ scx ∧ scx < (sw : ℤ) then
        (ch (d.getD (scy * sw + scx).toNat ⟨0, 0, 0, 0⟩) : ℚ) *
          weights.getD (cy * side + cx) 0
      else 0)).sum)).sum

/-- `convolute(pixels, weights)`: `side = Math.round(Math.sqrt(n))`
(equal to `Nat.sqrt n` on the square kernel lengths the engine uses),
reads come from the untouched input array, each output R/G/B channel is
the explicitly clamped window sum, and alpha is copied from the source
pixel at the output position.  The `y`-outer, `x`-inner loop produces
the row-major output grid. -/
def convolute (pixels : Buffer) (weights : List ℚ) : Buffer :=
  let side := Nat.sqrt weights.length
  let sw := pixels.width
  let sh := pixels.height
  let d := pixels.data
  { pixels with data :=
      (List.range sh).flatMap (fun y =>
        (List.range sw).map (fun x =>
          let src := d.getD (y * sw + x) ⟨0, 0, 0, 0⟩
          { r := toUint8Clamp (max 0 (min 255 (convAccum d sw sh weights side x y Pixel.r)))
            g := toUint8Clamp (max 0 (min 255 (convAccum d sw sh weights side x y Pixel.g)))
            b := toUint8Clamp (max 0 (min 255 (convAccum d sw sh weights side x y Pixel.b)))
            a := src.a })) }

/-- `sharpen(pixels, amount)`: convolution with the cross-shaped
sharpening kernel. -/
def sharpen (pixels : Buffer) (amount : ℚ) : Buffer :=
  convolute pixels
    [0, -1 * amount, 0,
     -1 * amount, 1 + 4 * amount, -1 * amount,
     0, -1 * amount, 0]

/-- `ToUint8Clamp` over the reals, for the vignette operator whose
per-pixel factor involves `Math.sqrt`. -/
noncomputable def toUint8ClampR (x : ℝ) : ℕ :=
  if x ≤ 0 then 0
  else if 255 ≤ x then 255
  else
    let f : ℤ := ⌊x⌋
    if (f : ℝ) + 1/2 < x then (f + 1).toNat
    else if x < (f : ℝ) + 1/2 then f.toNat
    else if f % 2 = 0 then f.toNat else (f + 1).toNat

/-- `vignette(pixels, amount)`: each R/G/B channel is multiplied by
`1 - (dist/maxDist) * amount` and floored at 0 (the store clamps above);
alpha is left alone.  Positions are recovered from the flat index by
`y = i / w`, `x = i % w`, matching the row-major loop on a buffer whose
data length is `width * height`. -/
noncomputable def vignette (pixels : Buffer) (amount : ℝ) : Buffer :=
  let w := pixels.width
  let h := pixels.height
  let cx : ℝ := w / 2
  let cy : ℝ := h / 2
  let maxDist : ℝ := Real.sqrt (cx * cx + cy * cy)
  { pixels with data := pixels.data.mapIdx (fun i p =>
      let x : ℝ := (i % w : ℕ)
      let y : ℝ := (i / w : ℕ)
      let dx := x - cx
      let dy := y - cy
      let dist := Real.sqrt (dx * dx + dy * dy)
      let factor := 1 - dist / maxDist * amount
      { p with
        r := toUint8ClampR (max 0 ((p.r : ℝ) * factor))
        g := toUint8ClampR (max 0 ((p.g : ℝ) * factor))
        b := toUint8ClampR (max 0 ((p.b : ℝ) * factor)) }) }

/-- `noise(pixels, amount)`: per pixel an independent draw
`(Math.random() - 0.5) * amount` is added to each of R, G, B with an
explicit clamp.  The ambient random source is passed in as the stream
`rand`, the `i`-th entry being the draw used for pixel `i`. -/
def noise (pixels : Buffer) (amount : ℚ) (rand : ℕ → ℚ) : Buffer :=
  { pixels with data := pixels.data.mapIdx (fun i p =>
      let noiseVal := (rand i - 0.5) * amount
      writeRGB p
        (max 0 (min 255 ((p.r : ℚ) + noiseVal)))
        (max 0 (min 255 ((p.g : ℚ) + noiseVal)))
        (max 0 (min 255 ((p.b : ℚ) + noiseVal)))) }

/-! ## instaFilters.ts: the filter catalog -/

/-- A catalog entry: the display-only fields (`nameKo`, `description`)
are elided; `id`, `name`, `category` and the pipeline are kept. -/
structure FilterPreset where
  id : String
  name : String
  category : String
  apply : Buffer → Buffer

/-- `normal`: the identity pipeline. -/
def normal (pixels : Buffer) : Buffer := pixels

/-- `clarendon`. -/
def clarendon (p0 : Buffer) : Buffer :=
  let p1 := brightness p0 0.1
  let p2 := contrast p1 0.1
  saturation p2 0.15

/-- `gingham`. -/
def gingham (p0 : Buffer) : Buffer :=
  let p1 := sepia p0 0.04
  contrast p1 (-0.15)

/-- `reyes`. -/
def reyes (p0 : Buffer) : Buffer :=
  let p1 := sepia p0 0.4
  let p2 := brightness p1 0.13
  contrast p2 (-0.05)

/-- `stinson`. -/
def stinson (p0 : Buffer) : Buffer :=
  let p1 := brightness p0 0.1
  sepia p1 0.3

/-- `earlybird`. -/
def earlybird (p0 : Buffer) : Buffer :=
  colorFilter p0 (255, 165, 40, 0.2)

/-- `toaster`. -/
def toaster (p0 : Buffer) : Buffer :=
  let p1 := sepia p0 0.1
  colorFilter p1 (255, 145, 0, 0.2)

/-- `walden`. -/
def walden (p0 : Buffer) : Buffer :=
  let p1 := brightness p0 0.1
  colorFilter p1 (255, 255, 0, 0.2)

/-- `f1977` (the "1977" filter). -/
def f1977 (p0 : Buffer) : Buffer :=
  let p1 := colorFilter p0 (255, 25, 0, 0.15)
  brightness p1 0.1

/-- `brooklyn`. -/
def brooklyn (p0 : Buffer) : Buffer :=
  let p1 := colorFilter p0 (25, 240, 252, 0.05)
  sepia p1 0.3

/-- `moon`. -/
def moon (p0 : Buffer) : Buffer :=
  let p1 := grayscale p0
  let p2 := contrast p1 (-0.04)
  brightness p2 0.1

/-- `willow`. -/
def willow (p0 : Buffer) : Buffer :=
  let p1 := grayscale p0
  let p2 := colorFilter p1 (100, 28, 210, 0.03)
  brightness p2 0.1

/-- `inkwell`. -/
def inkwell (p0 : Buffer) : Buffer :=
  grayscale p0

/-- `lark`. -/
def lark (p0 : Buffer) : Buffer :=
  let p1 := brightness p0 0.08
  let p2 := rgbAdjust p1 (1, 1.03, 1.05)
  saturation p2 0.12

/-- `juno`. -/
def juno (p0 : Buffer) : Buffer :=
  let p1 := rgbAdjust p0 (1.01, 1.04, 1)
  saturation p1 0.3

/-- `amaro`. -/
def amaro (p0 : Buffer) : Buffer :=
  let p1 := saturation p0 0.3
  brightness p1 0.15

/-- `mayfair`. -/
def mayfair (p0 : Buffer) : Buffer :=
  let p1 := colorFilter p0 (230, 115, 108, 0.05)
  saturation p1 0.15

/-- `rise`. -/
def rise (p0 : Buffer) : Buffer :=
  let p1 := colorFilter p0 (255, 170, 0, 0.1)
  let p2 := brightness p1 0.09
  saturation p2 0.1

/-- `valencia`. -/
def valencia (p0 : Buffer) : Buffer :=
  let p1 := colorFilter p0 (255, 225, 80, 0.08)
  let p2 := saturation p1 0.1
  contrast p2 0.05

/-- `kelvin`. -/
def kelvin (p0 : Buffer) : Buffer :=
  let p1 := colorFilter p0 (255, 140, 0, 0.1)
  let p2 := rgbAdjust p1 (1.15, 1.05, 1)
  saturation p2 0.35

/-- `nashville`. -/
def nashville (p0 : Buffer) : Buffer :=
  let p1 := colorFilter p0 (220, 115, 188, 0.12)
  contrast p1 (-0.05)

/-- `vesper`. -/
def vesper (p0 : Buffer) : Buffer :=
  let p1 := colorFilter p0 (255, 225, 0, 0.05)
  let p2 := brightness p1 0.06
  contrast p2 0.06

/-- `ashby`. -/
def ashby (p0 : Buffer) : Buffer :=
  let p1 := colorFilter p0 (255, 160, 25, 0.1)
  brightness p1 0.1

/-- `charmes`. -/
def charmes (p0 : Buffer) : Buffer :=
  let p1 := colorFilter p0 (255, 50, 80, 0.12)
  contrast p1 0.05

/-- `ginza`. -/
def ginza (p0 : Buffer) : Buffer :=
  let p1 := sepia p0 0.06
  brightness p1 0.1

/-- `hudson`. -/
def hudson (p0 : Buffer) : Buffer :=
  let p1 := rgbAdjust p0 (1, 1, 1.25)
  let p2 := contrast p1 0.1
  brightness p2 0.15

/-- `slumber`. -/
def slumber (p0 : Buffer) : Buffer :=
  let p1 := brightness p0 0.1
  saturation p1 (-0.5)

/-- `aden`. -/
def aden (p0 : Buffer) : Buffer :=
  let p1 := colorFilter p0 (228, 130, 225, 0.13)
  saturation p1 (-0.2)

/-- `perpetua`. -/
def perpetua (p0 : Buffer) : Buffer :=
  rgbAdjust p0 (1.05, 1.1, 1)

/-- `crema`. -/
def crema (p0 : Buffer) : Buffer :=
  let p1 := rgbAdjust p0 (1.04, 1, 1.02)
  saturation p1 (-0.05)

/-- `ludwig`. -/
def ludwig (p0 : Buffer) : Buffer :=
  let p1 := brightness p0 0.05
  saturation p1 (-0.03)

/-- `xpro2`. -/
def xpro2 (p0 : Buffer) : Buffer :=
  let p1 := colorFilter p0 (255, 255, 0, 0.07)
  let p2 := saturation p1 0.2
  contrast p2 0.15

/-- `lofi`. -/
def lofi (p0 : Buffer) : Buffer :=
  let p1 := contrast p0 0.15
  saturation p1 0.2

/-- `hefe`. -/
def hefe (p0 : Buffer) : Buffer :=
  let p1 := contrast p0 0.1
  saturation p1 0.15

/-- `brannan`. -/
def brannan (p0 : Buffer) : Buffer :=
  let p1 := contrast p0 0.2
  colorFilter p1 (140, 10, 185, 0.1)

/-- `sutro`. -/
def sutro (p0 : Buffer) : Buffer :=
  let p1 := brightness p0 (-0.1)
  saturation p1 (-0.1)

/-- `skyline`. -/
def skyline (p0 : Buffer) : Buffer :=
  let p1 := saturation p0 0.35
  brightness p1 0.1

/-- `dogpatch`. -/
def dogpatch (p0 : Buffer) : Buffer :=
  let p1 := contrast p0 0.15
  brightness p1 0.1

/-- `maven`. -/
def maven (p0 : Buffer) : Buffer :=
  let p1 := colorFilter p0 (225, 240, 0, 0.1)
  let p2 := saturation p1 0.25
  contrast p2 0.05

/-- `helena`. -/
def helena (p0 : Buffer) : Buffer :=
  let p1 := colorFilter p0 (208, 208, 86, 0.2)
  contrast p1 0.15

/-- `sierra`. -/
def sierra (p0 : Buffer) : Buffer :=
  let p1 := contrast p0 (-0.15)
  saturation p1 0.1

/-- `googleStyle`. -/
def googleStyle (p0 : Buffer) : Buffer :=
  let p1 := saturation p0 0.35
  let p2 := contrast p1 0.12
  let p3 := rgbAdjust p2 (0.98, 1.0, 1.12)
  let p4 := brightness p3 0.05
  sharpen p4 0.3

/-- `googlePop`. -/
def googlePop (p0 : Buffer) : Buffer :=
  let p1 := saturation p0 0.5
  let p2 := contrast p1 0.18
  let p3 := rgbAdjust p2 (1.02, 1.05, 1.15)
  sharpen p3 0.4

/-- `googleVivid`. -/
def googleVivid (p0 : Buffer) : Buffer :=
  let p1 := saturation p0 0.6
  let p2 := contrast p1 0.2
  let p3 := rgbAdjust p2 (1.0, 1.02, 1.18)
  let p4 := brightness p3 0.03
  sharpen p4 0.5

/-- `googleNatural`. -/
def googleNatural (p0 : Buffer) : Buffer :=
  let p1 := saturation p0 0.2
  let p2 := contrast p1 0.08
  let p3 := rgbAdjust p2 (1.0, 1.02, 1.08)
  sharpen p3 0.2

/-- `googleHDR`. -/
def googleHDR (p0 : Buffer) : Buffer :=
  let p1 := saturation p0 0.4
  let p2 := contrast p1 0.22
  let p3 := rgbAdjust p2 (1.02, 1.04, 1.12)
  let p4 := brightness p3 (-0.02)
  sharpen p4 0.35

/-- `filterPresets`: the catalog, in source order. -/
def filterPresets : List FilterPreset :=
  [⟨"normal", "Normal", "soft", normal⟩,
   ⟨"google-style", "Google Style", "google", googleStyle⟩,
   ⟨"google-pop", "Google Pop", "google", googlePop⟩,
   ⟨"google-vivid", "Google Vivid", "google", googleVivid⟩,
   ⟨"google-natural", "Google Natural", "google", googleNatural⟩,
   ⟨"google-hdr", "Google HDR", "google", googleHDR⟩,
   ⟨"clarendon", "Clarendon", "vintage", clarendon⟩,
   ⟨"gingham", "Gingham", "vintage", gingham⟩,
   ⟨"reyes", "Reyes", "vintage", reyes⟩,
   ⟨"stinson", "Stinson", "vintage", stinson⟩,
   ⟨"earlybird", "Earlybird", "vintage", earlybird⟩,
   ⟨"toaster", "Toaster", "vintage", toaster⟩,
   ⟨"walden", "Walden", "vintage", walden⟩,
   ⟨"1977", "1977", "vintage", f1977⟩,
   ⟨"brooklyn", "Brooklyn", "vintage", brooklyn⟩,
   ⟨"moon", "Moon", "bw", moon⟩,
   ⟨"willow", "Willow", "bw", willow⟩,
   ⟨"inkwell", "Inkwell", "bw", inkwell⟩,
   ⟨"lark", "Lark", "warm", lark⟩,
   ⟨"juno", "Juno", "warm", juno⟩,
   ⟨"amaro", "Amaro", "warm", amaro⟩,
   ⟨"mayfair", "Mayfair", "warm", mayfair⟩,
   ⟨"rise", "Rise", "warm", rise⟩,
   ⟨"valencia", "Valencia", "warm", valencia⟩,
   ⟨"kelvin", "Kelvin", "warm", kelvin⟩,
   ⟨"nashville", "Nashville", "warm", nashville⟩,
   ⟨"vesper", "Vesper", "warm", vesper⟩,
   ⟨"ashby", "Ashby", "warm", ashby⟩,
   ⟨"charmes", "Charmes", "warm", charmes⟩,
   ⟨"ginza", "Ginza", "warm", ginza⟩,
   ⟨"hudson", "Hudson", "cool", hudson⟩,
   ⟨"slumber", "Slumber", "cool", slumber⟩,
   ⟨"aden", "Aden", "cool", aden⟩,
   ⟨"perpetua", "Perpetua", "cool", perpetua⟩,
   ⟨"crema", "Crema", "cool", crema⟩,
   ⟨"ludwig", "Ludwig", "cool", ludwig⟩,
   ⟨"xpro2", "X-Pro II", "vivid", xpro2⟩,
   ⟨"lofi", "Lo-Fi", "vivid", lofi⟩,
   ⟨"hefe", "Hefe", "vivid", hefe⟩,
   ⟨"brannan", "Brannan", "vivid", brannan⟩,
   ⟨"sutro", "Sutro", "vivid", sutro⟩,
   ⟨"skyline", "Skyline", "vivid", skyline⟩,
   ⟨"dogpatch", "Dogpatch", "vivid", dogpatch⟩,
   ⟨"maven", "Maven", "vivid", maven⟩,
   ⟨"helena", "Helena", "vivid", helena⟩,
   ⟨"sierra", "Sierra", "soft", sierra⟩]

/-- `getFilterById(id)`: linear search of the catalog, `undefined`
(here `none`) when nothing matches. -/
def getFilterById (id : String) : Option FilterPreset :=
  filterPresets.find? (fun f => f.id = id)

/-! ## imageProcessing.ts -/

/-- The strength-blend loop of `applyFilterToImage` (lines 80-84): the
loop runs over the filtered data (held in `imageData`), overwriting each
R, G and B channel with `original * (1-strength) + filtered * strength`;
the alpha bytes are not touched, so they stay those of the filtered
buffer.  In the source both arrays always have the same length. -/
def blendData (orig filtered : Buffer) (strength : ℚ) : Buffer :=
  { filtered with data := (List.zip orig.data filtered.data).map (fun pq =>
      ⟨toUint8Clamp ((pq.1.r : ℚ) * (1 - strength) + (pq.2.r : ℚ) * strength),
       toUint8Clamp ((pq.1.g : ℚ) * (1 - strength) + (pq.2.g : ℚ) * strength),
       toUint8Clamp ((pq.1.b : ℚ) * (1 - strength) + (pq.2.b : ℚ) * strength),
       pq.2.a⟩) }

/-- The pure core of `applyFilterToImage(imageUrl, filterId, strength)`
(lines 67-89), acting on the decoded buffer: `'normal'` and an id that
is not in the catalog leave the buffer untouched; `strength < 1` applies
the filter and blends with the saved original; otherwise the filter
output is returned as is.  No parameter is validated or rejected. -/
def applyFilterCore (buf : Buffer) (filterId : String) (strength : ℚ) : Buffer :=
  if filterId = "normal" then buf
  else
    match getFilterById filterId with
    | none => buf
    | some filter =>
      if strength < 1 then
        blendData buf (filter.apply buf) strength
      else
        filter.apply buf

/-! ## Spec-side definitions and concrete example buffers -/

/-- All R, G, B channels of the buffer are in range (the invariant every
real `ImageData` satisfies; alpha is covered by the same typed array but
the claims speak of the color channels). -/
def rgbInRange (buf : Buffer) : Prop :=
  ∀ p ∈ buf.data, p.r ≤ 255 ∧ p.g ≤ 255 ∧ p.b ≤ 255

instance (buf : Buffer) : Decidable (rgbInRange buf) := by
  unfold rgbInRange; infer_instance

/-- The alpha channels of a buffer, in pixel order. -/
def alphas (buf : Buffer) : List ℕ := buf.data.map Pixel.a

/-- Modelled from the spec's wording of the convolution contract: for an
output position `(x, y)` and one channel, the sum of
`weight[ky][kx] * sourcePixel[y + ky - halfSide][x + kx - halfSide]`
over exactly the in-bounds window positions of a `k × k` kernel
(`halfSide = ⌊k / 2⌋`), out-of-bounds source positions contributing
zero. -/
def convSpecSum (buf : Buffer) (weights : List ℚ) (k : ℕ) (x y : ℕ)
    (ch : Pixel → ℕ) : ℚ :=
  ∑ p ∈ (Finset.range k ×ˢ Finset.range k).filter (fun p =>
      0 ≤ (y : ℤ) + p.1 - (k / 2 : ℕ) ∧ (y : ℤ) + p.1 - (k / 2 : ℕ) < (buf.height : ℤ) ∧
      0 ≤ (x : ℤ) + p.2 - (k / 2 : ℕ) ∧ (x : ℤ) + p.2 - (k / 2 : ℕ) < (buf.width : ℤ)),
    weights.getD (p.1 * k + p.2) 0 *
      (ch (buf.data.getD ((((y : ℤ) + p.1 - (k / 2 : ℕ)) * buf.width +
        ((x : ℤ) + p.2 - (k / 2 : ℕ))).toNat) ⟨0, 0, 0, 0⟩) : ℚ)

/-- A one-pixel buffer of pure opaque white. -/
def whiteBuf : Buffer := ⟨1, 1, [⟨255, 255, 255, 255⟩]⟩

/-- A small concrete buffer used to exercise the filter entry point. -/
def exBuf : Buffer := ⟨1, 1, [⟨10, 20, 30, 40⟩]⟩

/-! ## Basic lemmas about the clamping store -/

/-- `writeRGB` never touches the alpha field.  Stated over variable
channel arguments so the kernel checks it once, generically. -/
theorem writeRGB_a (p : Pixel) (r g b : ℚ) : (writeRGB p r g b).a = p.a := rfl

theorem toUint8Clamp_le (x : ℚ) : toUint8Clamp x ≤ 255 := by
  unfold toUint8Clamp
  split
  · omega
  split
  · omega
  rename_i h0 h255
  push_neg at h0 h255
  have hf : ⌊x⌋ ≤ 254 := by
    have : ⌊x⌋ < 255 := by
      have := Int.floor_le_floor (α := ℚ) (le_of_lt h255)
      have h : ⌊x⌋ ≤ ⌊(255 : ℚ)⌋ := this
      rw [show ⌊(255 : ℚ)⌋ = 255 by norm_num] at h
      rcases lt_or_eq_of_le h with h' | h'
      · exact h'
      · exfalso
        have : (255 : ℚ) ≤ x := by
          have := Int.floor_le x
          rw [h'] at this
          exact_mod_cast this
        exact absurd this (not_le.mpr h255)
    omega
  simp only
  split
  · omega
  split
  · omega
  split
  · omega
  · omega

theorem toUint8Clamp_natCast (n : ℕ) (h : n ≤ 255) : toUint8Clamp (n : ℚ) = n := by
  unfold toUint8Clamp
  have hfloor : ⌊(n : ℚ)⌋ = (n : ℤ) := Int.floor_natCast n
  split
  · rename_i h0
    have : (n : ℚ) = 0 := le_antisymm h0 (by positivity)
    have : n = 0 := by exact_mod_cast this
    omega
  split
  · rename_i _ h255
    have : (255 : ℚ) ≤ (n : ℚ) := h255
    have h255n : 255 ≤ n := by exact_mod_cast this
    omega
  simp only [hfloor]
  split
  · rename_i hlt
    exfalso
    have : (n : ℚ) + 1/2 < (n : ℚ) := by push_cast at hlt ⊢; linarith
    linarith
  split
  · simp
  · rename_i hge hlt
    exfalso
    push_neg at hge hlt
    push_cast at hge hlt
    linarith

theorem toUint8ClampR_le (x : ℝ) : toUint8ClampR x ≤ 255 := by
  unfold toUint8ClampR
  split
  · omega
  split
  · omega
  rename_i h0 h255
  push_neg at h0 h255
  have hf : ⌊x⌋ ≤ 254 := by
    have h : ⌊x⌋ ≤ ⌊(255 : ℝ)⌋ := Int.floor_le_floor (le_of_lt h255)
    rw [show ⌊(255 : ℝ)⌋ = 255 by norm_num] at h
    rcases lt_or_eq_of_le h with h' | h'
    · omega
    · exfalso
      have : (255 : ℝ) ≤ x := by
        have := Int.floor_le x
        rw [h'] at this
        exact_mod_cast this
      exact absurd this (not_le.mpr h255)
  simp only
  split
  · omega
  split
  · omega
  split
  · omega
  · omega

theorem jsRound_natCast (n : ℕ) : jsRound (n : ℚ) = n := by
  unfold jsRound
  rw [Int.floor_eq_iff]
  constructor <;> push_cast <;> linarith

/-! ## Grid and list-sum lemmas -/

theorem range_flatMap_grid {β : Type} (m n : ℕ) (f : ℕ → ℕ → β) :
    (List.range m).flatMap (fun y => (List.range n).map (fun x => f y x)) =
      (List.range (m * n)).map (fun i => f (i / n) (i % n)) := by
  induction m with
  | zero => simp
  | succ m ih =>
    rw [List.range_succ, List.flatMap_append, ih]
    rw [show (m + 1) * n = m * n + n by ring, List.range_add, List.map_append]
    congr 1
    · simp only [List.flatMap_cons, List.flatMap_nil, List.append_nil, List.map_map]
      apply List.map_congr_left
      intro x hx
      have hxn : x < n := List.mem_range.mp hx
      simp only [Function.comp]
      have h1 : (m * n + x) / n = m := by
        rw [Nat.add_comm, Nat.mul_comm, Nat.add_mul_div_left x m (by omega : 0 < n),
          Nat.div_eq_of_lt hxn]
        omega
      have h2 : (m * n + x) % n = x := by
        rw [Nat.add_comm, Nat.mul_comm, Nat.add_mul_mod_self_left, Nat.mod_eq_of_lt hxn]
      rw [h1, h2]

theorem map_getD_range {β : Type} (l : List Pixel) (g : Pixel → β) (d : Pixel) :
    (List.range l.length).map (fun i => g (l.getD i d)) = l.map g := by
  apply List.ext_getElem (by simp)
  intro i h1 h2
  simp only [List.getElem_map, List.getElem_range]
  rw [List.getD_eq_getElem?_getD, List.getElem?_eq_getElem (by simpa using h2)]
  rfl

theorem getD_map_range {β : Type} (n i : ℕ) (f : ℕ → β) (d : β)
    (h : i < n) : ((List.range n).map f).getD i d = f i := by
  rw [List.getD_eq_getElem?_getD, List.getElem?_map, List.getElem?_range h]
  rfl

theorem sum_map_range (n : ℕ) (f : ℕ → ℚ) :
    ((List.range n).map f).sum = ∑ i ∈ Finset.range n, f i := by
  induction n with
  | zero => simp
  | succ n ih =>
    rw [List.range_succ, List.map_append, List.sum_append, Finset.sum_range_succ, ih]
    simp

/-! ## Shared spec-side predicates and convenience lemmas -/

theorem toUint8Clamp_clamp_natCast (n : ℕ) (h : n ≤ 255) :
    toUint8Clamp (max 0 (min 255 (n : ℚ))) = n := by
  have h255 : (n : ℚ) ≤ 255 := by exact_mod_cast h
  rw [min_eq_right h255, max_eq_right (by positivity)]
  exact toUint8Clamp_natCast n h

theorem map_eq_self_of {f : Pixel → Pixel} :
    ∀ (l : List Pixel), (∀ p ∈ l, f p = p) → l.map f = l := by
  intro l h
  induction l with
  | nil => rfl
  | cons a t ih => simp_all

/-! ## Claim C9 -/

/-- C9: for every `adj` in the valid range `[-1, 1]` the denominator
`255 * (259 - adj * 255)` of the contrast factor is nonzero, and at
`adj = 1` it equals `255 * 4`, so `contrast` never divides by zero on
its valid parameter range. -/
theorem contrast_denominator_nonzero :
    (∀ adj : ℚ, -1 ≤ adj → adj ≤ 1 → contrastDenom adj ≠ 0) ∧
      contrastDenom 1 = 255 * 4 := by
  constructor
  · intro adj h1 h2
    unfold contrastDenom
    have : (0 : ℚ) < 255 * (259 - adj * 255) := by nlinarith
    exact ne_of_gt this
  · norm_num [contrastDenom]

/-- Witness for C9 at `adj = 1/2`. -/
theorem contrast_denominator_nonzero_witness :
    contrastDenom (1/2) ≠ 0 :=
  contrast_denominator_nonzero.1 (1/2) (by norm_num) (by norm_num)

/-! ## Claim C10 -/

/-- C10: `brightness` silently clamps its parameter into `[-1, 1]` and
`saturation` silently clamps its parameter from below at `-1` instead of
rejecting out-of-range values; in particular `brightness buf 5` is
`brightness buf 1`. -/
theorem params_silently_coerced :
    ∀ (buf : Buffer) (adj : ℚ),
      brightness buf adj = brightness buf (max (-1) (min 1 adj)) ∧
      saturation buf adj = saturation buf (max (-1) adj) ∧
      brightness buf 5 = brightness buf 1 := by
  have hb : ∀ (buf : Buffer) (a a' : ℚ), max (-1) (min 1 a) = max (-1) (min 1 a') →
      brightness buf a = brightness buf a' := by
    intro buf a a' h
    simp only [brightness, h]
  have hs : ∀ (buf : Buffer) (a a' : ℚ), max (-1) a = max (-1) a' →
      saturation buf a = saturation buf a' := by
    intro buf a a' h
    simp only [saturation, h]
  intro buf adj
  refine ⟨hb buf _ _ ?_, hs buf _ _ ?_, hb buf _ _ (by norm_num)⟩
  · have hle1 : max (-1 : ℚ) (min 1 adj) ≤ 1 := max_le (by norm_num) (min_le_left _ _)
    have hge : (-1 : ℚ) ≤ max (-1) (min 1 adj) := le_max_left _ _
    rw [min_eq_right hle1, max_eq_right hge]
  · have hge : (-1 : ℚ) ≤ max (-1) adj := le_max_left _ _
    rw [max_eq_right hge]

/-! ## Claim C5 -/

/-- C5: with zero adjustment, `brightness`, `contrast`, `saturation`,
`sepia` and `colorFilter` (blend amount 0) are all bitwise identity
transforms on any in-range buffer. -/
theorem zero_adjustment_is_identity :
    ∀ (buf : Buffer) (cr cg cb : ℚ), rgbInRange buf →
      brightness buf 0 = buf ∧ contrast buf 0 = buf ∧ saturation buf 0 = buf ∧
        sepia buf 0 = buf ∧ colorFilter buf (cr, cg, cb, 0) = buf := by
  intro buf cr cg cb hwf
  obtain ⟨w, h, data⟩ := buf
  have hwf' : ∀ p ∈ data, p.r ≤ 255 ∧ p.g ≤ 255 ∧ p.b ≤ 255 := hwf
  refine ⟨?_, ?_, ?_, ?_, ?_⟩
  · simp only [brightness, Buffer.mk.injEq, true_and]
    apply map_eq_self_of
    intro p hp
    obtain ⟨h1, h2, h3⟩ := hwf' p hp
    obtain ⟨pr, pg, pb, pa⟩ := p
    simp only [writeRGB]
    have hz : max (-1 : ℚ) (min 1 0) = 0 := by norm_num
    have hjz : jsRound (255 * max (-1 : ℚ) (min 1 0)) = 0 := by
      rw [hz]; norm_num [jsRound]
    rw [hjz]
    push_cast
    rw [add_zero, add_zero, add_zero]
    simp only [Pixel.mk.injEq]
    exact ⟨toUint8Clamp_clamp_natCast pr h1, toUint8Clamp_clamp_natCast pg h2,
      toUint8Clamp_clamp_natCast pb h3, trivial⟩
  · simp only [contrast, Buffer.mk.injEq, true_and]
    apply map_eq_self_of
    intro p hp
    obtain ⟨h1, h2, h3⟩ := hwf' p hp
    obtain ⟨pr, pg, pb, pa⟩ := p
    simp only [writeRGB]
    have hfac : (259 * ((0 : ℚ) * 255 + 255)) / contrastDenom 0 = 1 := by
      norm_num [contrastDenom]
    rw [hfac]
    have er : (1 : ℚ) * ((pr : ℚ) - 128) + 128 = pr := by ring
    have eg : (1 : ℚ) * ((pg : ℚ) - 128) + 128 = pg := by ring
    have eb : (1 : ℚ) * ((pb : ℚ) - 128) + 128 = pb := by ring
    rw [er, eg, eb]
    simp only [Pixel.mk.injEq]
    exact ⟨toUint8Clamp_clamp_natCast pr h1, toUint8Clamp_clamp_natCast pg h2,
      toUint8Clamp_clamp_natCast pb h3, trivial⟩
  · simp only [saturation, Buffer.mk.injEq, true_and]
    apply map_eq_self_of
    intro p hp
    obtain ⟨h1, h2, h3⟩ := hwf' p hp
    obtain ⟨pr, pg, pb, pa⟩ := p
    simp only [writeRGB]
    have hz : max (-1 : ℚ) 0 = 0 := by norm_num
    rw [hz]
    have er : -(0.2989 * (pr : ℚ) + 0.5870 * pg + 0.1140 * pb) * 0 + (pr : ℚ) * (1 + 0) = pr := by
      ring
    have eg : -(0.2989 * (pr : ℚ) + 0.5870 * pg + 0.1140 * pb) * 0 + (pg : ℚ) * (1 + 0) = pg := by
      ring
    have eb : -(0.2989 * (pr : ℚ) + 0.5870 * pg + 0.1140 * pb) * 0 + (pb : ℚ) * (1 + 0) = pb := by
      ring
    rw [er, eg, eb]
    simp only [Pixel.mk.injEq]
    exact ⟨toUint8Clamp_clamp_natCast pr h1, toUint8Clamp_clamp_natCast pg h2,
      toUint8Clamp_clamp_natCast pb h3, trivial⟩
  · simp only [sepia, Buffer.mk.injEq, true_and]
    apply map_eq_self_of
    intro p hp
    obtain ⟨h1, h2, h3⟩ := hwf' p hp
    obtain ⟨pr, pg, pb, pa⟩ := p
    simp only [writeRGB]
    have er : (pr : ℚ) * (1 - 0.607 * 0) + (pg : ℚ) * 0.769 * 0 + (pb : ℚ) * 0.189 * 0 = pr := by
      ring
    have eg : (pr : ℚ) * 0.349 * 0 + (pg : ℚ) * (1 - 0.314 * 0) + (pb : ℚ) * 0.168 * 0 = pg := by
      ring
    have eb : (pr : ℚ) * 0.272 * 0 + (pg : ℚ) * 0.534 * 0 + (pb : ℚ) * (1 - 0.869 * 0) = pb := by
      ring
    rw [er, eg, eb]
    simp only [Pixel.mk.injEq]
    have hr : toUint8Clamp (pr : ℚ) = pr := toUint8Clamp_natCast pr h1
    have hg : toUint8Clamp (pg : ℚ) = pg := toUint8Clamp_natCast pg h2
    have hb : toUint8Clamp (pb : ℚ) = pb := toUint8Clamp_natCast pb h3
    exact ⟨hr, hg, hb, trivial⟩
  · simp only [colorFilter, Buffer.mk.injEq, true_and]
    apply map_eq_self_of
    intro p hp
    obtain ⟨h1, h2, h3⟩ := hwf' p hp
    obtain ⟨pr, pg, pb, pa⟩ := p
    simp only [writeRGB]
    have er : (pr : ℚ) - ((pr : ℚ) - cr) * 0 = pr := by ring
    have eg : (pg : ℚ) - ((pg : ℚ) - cg) * 0 = pg := by ring
    have eb : (pb : ℚ) - ((pb : ℚ) - cb) * 0 = pb := by ring
    rw [er, eg, eb]
    simp only [Pixel.mk.injEq]
    exact ⟨toUint8Clamp_natCast pr h1, toUint8Clamp_natCast pg h2,
      toUint8Clamp_natCast pb h3, trivial⟩

/-- Witness for C5 on a concrete buffer. -/
theorem zero_adjustment_is_identity_witness :
    brightness ⟨1, 1, [⟨10, 20, 30, 40⟩]⟩ 0 = ⟨1, 1, [⟨10, 20, 30, 40⟩]⟩ ∧
      contrast ⟨1, 1, [⟨10, 20, 30, 40⟩]⟩ 0 = ⟨1, 1, [⟨10, 20, 30, 40⟩]⟩ ∧
      saturation ⟨1, 1, [⟨10, 20, 30, 40⟩]⟩ 0 = ⟨1, 1, [⟨10, 20, 30, 40⟩]⟩ ∧
      sepia ⟨1, 1, [⟨10, 20, 30, 40⟩]⟩ 0 = ⟨1, 1, [⟨10, 20, 30, 40⟩]⟩ ∧
      colorFilter ⟨1, 1, [⟨10, 20, 30, 40⟩]⟩ (7, 8, 9, 0) = ⟨1, 1, [⟨10, 20, 30, 40⟩]⟩ :=
  zero_adjustment_is_identity ⟨1, 1, [⟨10, 20, 30, 40⟩]⟩ 7 8 9 (by decide)

/-! ## Claim C3 -/

/-- The sepia matrix at `adj = 1` sends a pure-white pixel to
`(255, 255, 239)`: the R and G rows sum above 1 and clamp, the B row
sums to `0.937` and `255 * 0.937 = 238.935` rounds to 239. -/
theorem sepia_pixel_white :
    writeRGB ⟨255, 255, 255, 255⟩
        (((255 : ℕ) : ℚ) * (1 - 0.607 * 1) + ((255 : ℕ) : ℚ) * 0.769 * 1 +
          ((255 : ℕ) : ℚ) * 0.189 * 1)
        (((255 : ℕ) : ℚ) * 0.349 * 1 + ((255 : ℕ) : ℚ) * (1 - 0.314 * 1) +
          ((255 : ℕ) : ℚ) * 0.168 * 1)
        (((255 : ℕ) : ℚ) * 0.272 * 1 + ((255 : ℕ) : ℚ) * 0.534 * 1 +
          ((255 : ℕ) : ℚ) * (1 - 0.869 * 1)) = ⟨255, 255, 239, 255⟩ := by
  simp only [writeRGB, Pixel.mk.injEq]
  refine ⟨?_, ?_, ?_, trivial⟩ <;> · norm_num [toUint8Clamp]; try rfl

/-- Counterexample to C3 as stated: on an all-white opaque buffer,
`sepia` with `adj = 1` does not leave every R, G and B channel at 255 —
the blue channel comes out as 239. -/
theorem sepia_white_not_all_255 :
    ¬ (∀ p ∈ (sepia whiteBuf 1).data, p.r = 255 ∧ p.g = 255 ∧ p.b = 255) := by
  intro hall
  have hmem : writeRGB ⟨255, 255, 255, 255⟩
      (((255 : ℕ) : ℚ) * (1 - 0.607 * 1) + ((255 : ℕ) : ℚ) * 0.769 * 1 +
        ((255 : ℕ) : ℚ) * 0.189 * 1)
      (((255 : ℕ) : ℚ) * 0.349 * 1 + ((255 : ℕ) : ℚ) * (1 - 0.314 * 1) +
        ((255 : ℕ) : ℚ) * 0.168 * 1)
      (((255 : ℕ) : ℚ) * 0.272 * 1 + ((255 : ℕ) : ℚ) * 0.534 * 1 +
        ((255 : ℕ) : ℚ) * (1 - 0.869 * 1)) ∈ (sepia whiteBuf 1).data := by
    simp [sepia, whiteBuf]
  have h := (hall _ hmem).2.2
  rw [sepia_pixel_white] at h
  exact absurd h (by decide)

/-- C3 amended: on a buffer in which every pixel is pure opaque white,
`sepia` with `adj = 1` yields pixels with R = 255 and G = 255 (those two
matrix rows sum above 1, so the sums clamp at 255) but B = 239 (the blue
row sums to 0.937 and `255 * 0.937 = 238.935` rounds to 239); alpha
stays 255. -/
theorem sepia_on_white :
    ∀ (buf : Buffer), (∀ p ∈ buf.data, p = ⟨255, 255, 255, 255⟩) →
      ∀ q ∈ (sepia buf 1).data, q = ⟨255, 255, 239, 255⟩ := by
  intro buf hwhite q hq
  simp only [sepia] at hq
  obtain ⟨p, hp, rfl⟩ := List.mem_map.mp hq
  rw [hwhite p hp]
  exact sepia_pixel_white

/-- Witness for C3 (amended) on the concrete one-pixel white buffer:
its single output pixel is `(255, 255, 239, 255)`. -/
theorem sepia_on_white_witness :
    (sepia whiteBuf 1).data.getD 0 ⟨0, 0, 0, 0⟩ = ⟨255, 255, 239, 255⟩ := by
  apply sepia_on_white whiteBuf (by decide)
  simp [sepia, whiteBuf]
/-! ## Claim C2 -/

/-- Counterexample to C2 as stated: the entry point does not fail fast
on a bad parameter — an id absent from the catalog is silently ignored
(the original buffer comes back unchanged, no error value exists
anywhere on this code path), and the out-of-range strength 5 is accepted
and behaves exactly like full strength. -/
theorem applyFilter_silently_accepts_bad_params :
    getFilterById "vintage-dream" = none ∧
      applyFilterCore exBuf "vintage-dream" (1/2) = exBuf ∧
      applyFilterCore exBuf "inkwell" 5 = inkwell exBuf := by
  have hnone : getFilterById "vintage-dream" = none :=
    Option.isNone_iff_eq_none.mp (by decide)
  refine ⟨hnone, ?_, ?_⟩
  · unfold applyFilterCore
    rw [if_neg (by decide : ¬("vintage-dream" = "normal")), hnone]
  · unfold applyFilterCore
    rw [if_neg (by decide : ¬("inkwell" = "normal"))]
    rw [show getFilterById "inkwell" = some ⟨"inkwell", "Inkwell", "bw", inkwell⟩ from rfl]
    show (if (5 : ℚ) < 1 then _ else inkwell exBuf) = inkwell exBuf
    rw [if_neg (by norm_num)]

/-- C2 amended: the top-level filter application performs no parameter
validation at all.  An id that is not in the catalog is silently ignored
(the buffer is returned unfiltered, with no error); any strength of 1 or
more applies the filter at full strength; any strength below 1 — with no
lower bound, negative values included — is used directly as the blend
factor.  Only channel values are ever clamped, never these parameters. -/
theorem applyFilter_no_validation :
    ∀ (buf : Buffer) (fid : String) (strength : ℚ),
      (getFilterById fid = none → applyFilterCore buf fid strength = buf) ∧
      (∀ f, getFilterById fid = some f → 1 ≤ strength →
        applyFilterCore buf fid strength = f.apply buf) ∧
      (∀ f, getFilterById fid = some f → strength < 1 → fid ≠ "normal" →
        applyFilterCore buf fid strength = blendData buf (f.apply buf) strength) := by
  intro buf fid strength
  refine ⟨?_, ?_, ?_⟩
  · intro hnone
    by_cases hn : fid = "normal"
    · simp [applyFilterCore, hn]
    · unfold applyFilterCore
      rw [if_neg hn, hnone]
  · intro f hsome hs
    by_cases hn : fid = "normal"
    · subst hn
      rw [show getFilterById "normal" = some ⟨"normal", "Normal", "soft", normal⟩ from rfl]
        at hsome
      obtain rfl := Option.some.inj hsome
      simp [applyFilterCore, normal]
    · unfold applyFilterCore
      rw [if_neg hn, hsome]
      show (if strength < 1 then _ else f.apply buf) = f.apply buf
      rw [if_neg (not_lt.mpr hs)]
  · intro f hsome hs hn
    unfold applyFilterCore
    rw [if_neg hn, hsome]
    show (if strength < 1 then blendData buf (f.apply buf) strength else _) =
      blendData buf (f.apply buf) strength
    rw [if_pos hs]

/-- Witness for C2 (amended): an unknown id comes back untouched, and a
catalog filter requested at strength 2 is applied at full strength. -/
theorem applyFilter_no_validation_witness :
    applyFilterCore exBuf "no-such-filter" (1/2) = exBuf ∧
      applyFilterCore exBuf "inkwell" 2 =
        FilterPreset.apply ⟨"inkwell", "Inkwell", "bw", inkwell⟩ exBuf :=
  ⟨(applyFilter_no_validation exBuf "no-such-filter" (1/2)).1
      (Option.isNone_iff_eq_none.mp (by decide)),
   (applyFilter_no_validation exBuf "inkwell" 2).2.1
     ⟨"inkwell", "Inkwell", "bw", inkwell⟩ rfl (by norm_num)⟩
/-! ## Claim C4 -/

/-- Counterexample to C4 as stated: the strength-blend loop never
touches the alpha bytes of the array it runs over, and that array holds
the filtered pixels — so with strength 0 the result keeps the
*filtered* alpha and is not bitwise equal to the original when the two
alpha channels differ. -/
theorem blend_zero_not_always_original :
    blendData ⟨1, 1, [⟨10, 20, 30, 255⟩]⟩ ⟨1, 1, [⟨50, 60, 70, 0⟩]⟩ 0 ≠
      ⟨1, 1, [⟨10, 20, 30, 255⟩]⟩ := by
  intro h
  have h2 := congrArg (fun buf => (buf.data.getD 0 ⟨0, 0, 0, 0⟩).a) h
  simp only [blendData, List.zip_cons_cons, List.zip_nil_right, List.map_cons,
    List.map_nil, List.getD_cons_zero] at h2
  exact absurd h2 (by decide)

theorem blend_one_aux :
    ∀ (l1 l2 : List Pixel), l1.length = l2.length →
      (∀ q ∈ l2, q.r ≤ 255 ∧ q.g ≤ 255 ∧ q.b ≤ 255) →
      (List.zip l1 l2).map (fun pq =>
        (⟨toUint8Clamp ((pq.1.r : ℚ) * (1 - 1) + (pq.2.r : ℚ) * 1),
          toUint8Clamp ((pq.1.g : ℚ) * (1 - 1) + (pq.2.g : ℚ) * 1),
          toUint8Clamp ((pq.1.b : ℚ) * (1 - 1) + (pq.2.b : ℚ) * 1),
          pq.2.a⟩ : Pixel)) = l2 := by
  intro l1
  induction l1 with
  | nil =>
    intro l2 hlen _
    cases l2 with
    | nil => rfl
    | cons q t => simp at hlen
  | cons p t ih =>
    intro l2 hlen hwf
    cases l2 with
    | nil => simp at hlen
    | cons q t2 =>
      simp only [List.zip_cons_cons, List.map_cons]
      obtain ⟨hr, hg, hb⟩ := hwf q (by simp)
      congr 1
      · obtain ⟨qr, qg, qb, qa⟩ := q
        simp only [Pixel.mk.injEq]
        refine ⟨?_, ?_, ?_, trivial⟩ <;>
          · rw [show ∀ x y : ℕ, (x : ℚ) * (1 - 1) + (y : ℚ) * 1 = (y : ℚ) by intros; ring]
            exact toUint8Clamp_natCast _ (by assumption)
      · exact ih t2 (by simpa using hlen) (fun q' hq' => hwf q' (by simp [hq']))

theorem blend_zero_aux :
    ∀ (l1 l2 : List Pixel), l1.length = l2.length →
      (∀ p ∈ l1, p.r ≤ 255 ∧ p.g ≤ 255 ∧ p.b ≤ 255) →
      l2.map Pixel.a = l1.map Pixel.a →
      (List.zip l1 l2).map (fun pq =>
        (⟨toUint8Clamp ((pq.1.r : ℚ) * (1 - 0) + (pq.2.r : ℚ) * 0),
          toUint8Clamp ((pq.1.g : ℚ) * (1 - 0) + (pq.2.g : ℚ) * 0),
          toUint8Clamp ((pq.1.b : ℚ) * (1 - 0) + (pq.2.b : ℚ) * 0),
          pq.2.a⟩ : Pixel)) = l1 := by
  intro l1
  induction l1 with
  | nil =>
    intro l2 hlen _ _
    cases l2 with
    | nil => rfl
    | cons q t => simp at hlen
  | cons p t ih =>
    intro l2 hlen hwf halpha
    cases l2 with
    | nil => simp at hlen
    | cons q t2 =>
      simp only [List.map_cons, List.cons.injEq] at halpha
      simp only [List.zip_cons_cons, List.map_cons]
      obtain ⟨hr, hg, hb⟩ := hwf p (by simp)
      congr 1
      · obtain ⟨pr, pg, pb, pa⟩ := p
        simp only [Pixel.mk.injEq]
        refine ⟨?_, ?_, ?_, halpha.1⟩ <;>
          · rw [show ∀ x y : ℕ, (x : ℚ) * (1 - 0) + (y : ℚ) * 0 = (x : ℚ) by intros; ring]
            exact toUint8Clamp_natCast _ (by assumption)
      · exact ih t2 (by simpa using hlen) (fun p' hp' => hwf p' (by simp [hp'])) halpha.2

/-- C4 amended: blending with strength 1 returns the filtered buffer
bitwise (and in the entry point the `strength < 1` test means a
strength of 1 skips the blend loop entirely, returning the filter
output as is); blending with strength 0 restores the original's R, G
and B channels exactly — no rounding drift — but keeps the filtered
buffer's alpha bytes, so the result is bitwise equal to the original
exactly when the filtered buffer's alpha channel agrees with the
original's (which holds whenever the filtered buffer came from a
catalog filter, since no operator modifies alpha). -/
theorem blend_endpoints :
    ∀ (orig filt : Buffer),
      orig.width = filt.width → orig.height = filt.height →
      orig.data.length = filt.data.length →
      rgbInRange orig → rgbInRange filt →
      blendData orig filt 1 = filt ∧
        (alphas filt = alphas orig → blendData orig filt 0 = orig) := by
  intro orig filt hw hh hlen hwfo hwff
  obtain ⟨w1, h1, d1⟩ := orig
  obtain ⟨w2, h2, d2⟩ := filt
  have hw' : w1 = w2 := hw
  have hh' : h1 = h2 := hh
  subst hw' hh'
  have hlen' : d1.length = d2.length := hlen
  have hwfo' : ∀ p ∈ d1, p.r ≤ 255 ∧ p.g ≤ 255 ∧ p.b ≤ 255 := hwfo
  have hwff' : ∀ p ∈ d2, p.r ≤ 255 ∧ p.g ≤ 255 ∧ p.b ≤ 255 := hwff
  constructor
  · simp only [blendData, Buffer.mk.injEq, true_and]
    exact blend_one_aux d1 d2 hlen' hwff'
  · intro halpha
    have halpha' : d2.map Pixel.a = d1.map Pixel.a := halpha
    simp only [blendData, Buffer.mk.injEq, true_and]
    exact blend_zero_aux d1 d2 hlen' hwfo' halpha'

/-- Witness for C4 (amended) on concrete buffers with matching alpha. -/
theorem blend_endpoints_witness :
    blendData ⟨1, 1, [⟨10, 20, 30, 200⟩]⟩ ⟨1, 1, [⟨50, 60, 70, 200⟩]⟩ 1 =
        ⟨1, 1, [⟨50, 60, 70, 200⟩]⟩ ∧
      blendData ⟨1, 1, [⟨10, 20, 30, 200⟩]⟩ ⟨1, 1, [⟨50, 60, 70, 200⟩]⟩ 0 =
        ⟨1, 1, [⟨10, 20, 30, 200⟩]⟩ :=
  ⟨(blend_endpoints ⟨1, 1, [⟨10, 20, 30, 200⟩]⟩ ⟨1, 1, [⟨50, 60, 70, 200⟩]⟩
      rfl rfl rfl (by decide) (by decide)).1,
   (blend_endpoints ⟨1, 1, [⟨10, 20, 30, 200⟩]⟩ ⟨1, 1, [⟨50, 60, 70, 200⟩]⟩
      rfl rfl rfl (by decide) (by decide)).2 (by decide)⟩
/-! ## Claim C1 -/

/-- C1: for every input buffer and every operator of the engine, with
arbitrary parameters (in particular everywhere on the documented
domains), every R, G and B channel of the output is at most 255 — and,
channels being natural numbers in this model exactly as every
`Uint8ClampedArray` slot holds an integer in `[0, 255]`, they are
integers at least 0 as well.  The grayscale and sepia writes carry no
explicit clamp in the source; they are in range because the typed-array
store itself clamps. -/
theorem all_ops_channels_in_range :
    ∀ (buf : Buffer) (adjS adjB adjH adjSat adjC amtSharp amtNoise : ℚ)
      (col : ℚ × ℚ × ℚ × ℚ) (mul : ℚ × ℚ × ℚ) (weights : List ℚ) (amtVig : ℝ)
      (rand : ℕ → ℚ),
      rgbInRange (grayscale buf) ∧ rgbInRange (sepia buf adjS) ∧
      rgbInRange (invert buf) ∧ rgbInRange (brightness buf adjB) ∧
      rgbInRange (hueSaturation buf adjH) ∧ rgbInRange (saturation buf adjSat) ∧
      rgbInRange (contrast buf adjC) ∧ rgbInRange (colorFilter buf col) ∧
      rgbInRange (rgbAdjust buf mul) ∧ rgbInRange (convolute buf weights) ∧
      rgbInRange (sharpen buf amtSharp) ∧ rgbInRange (vignette buf amtVig) ∧
      rgbInRange (noise buf amtNoise rand) := by
  intro buf adjS adjB adjH adjSat adjC amtSharp amtNoise col mul weights amtVig rand
  have hmap : ∀ (l : List Pixel) (f : Pixel → Pixel),
      (∀ p, (f p).r ≤ 255 ∧ (f p).g ≤ 255 ∧ (f p).b ≤ 255) →
      ∀ q ∈ l.map f, q.r ≤ 255 ∧ q.g ≤ 255 ∧ q.b ≤ 255 := by
    intro l f hf q hq
    obtain ⟨p, _, rfl⟩ := List.mem_map.mp hq
    exact hf p
  have hmapIdx : ∀ (l : List Pixel) (f : ℕ → Pixel → Pixel),
      (∀ i p, (f i p).r ≤ 255 ∧ (f i p).g ≤ 255 ∧ (f i p).b ≤ 255) →
      ∀ q ∈ l.mapIdx f, q.r ≤ 255 ∧ q.g ≤ 255 ∧ q.b ≤ 255 := by
    intro l f hf q hq
    rw [List.mapIdx_eq_ofFn] at hq
    obtain ⟨i, hi⟩ := (List.mem_ofFn _ _).mp hq
    rw [← hi]
    exact hf _ _
  have hconv : ∀ (b : Buffer) (w : List ℚ), rgbInRange (convolute b w) := by
    intro b w q hq
    simp only [convolute] at hq
    obtain ⟨y, _, hq2⟩ := List.mem_flatMap.mp hq
    obtain ⟨x, _, rfl⟩ := List.mem_map.mp hq2
    exact ⟨toUint8Clamp_le _, toUint8Clamp_le _, toUint8Clamp_le _⟩
  refine ⟨?_, ?_, ?_, ?_, ?_, ?_, ?_, ?_, ?_, hconv buf weights, hconv _ _, ?_, ?_⟩
  · exact hmap _ _ (fun p => ⟨toUint8Clamp_le _, toUint8Clamp_le _, toUint8Clamp_le _⟩)
  · exact hmap _ _ (fun p => ⟨toUint8Clamp_le _, toUint8Clamp_le _, toUint8Clamp_le _⟩)
  · exact hmap _ _ (fun p => ⟨toUint8Clamp_le _, toUint8Clamp_le _, toUint8Clamp_le _⟩)
  · exact hmap _ _ (fun p => ⟨toUint8Clamp_le _, toUint8Clamp_le _, toUint8Clamp_le _⟩)
  · exact hmap _ _ (fun p => ⟨toUint8Clamp_le _, toUint8Clamp_le _, toUint8Clamp_le _⟩)
  · exact hmap _ _ (fun p => ⟨toUint8Clamp_le _, toUint8Clamp_le _, toUint8Clamp_le _⟩)
  · exact hmap _ _ (fun p => ⟨toUint8Clamp_le _, toUint8Clamp_le _, toUint8Clamp_le _⟩)
  · exact hmap _ _ (fun p => ⟨toUint8Clamp_le _, toUint8Clamp_le _, toUint8Clamp_le _⟩)
  · exact hmap _ _ (fun p => ⟨toUint8Clamp_le _, toUint8Clamp_le _, toUint8Clamp_le _⟩)
  · exact hmapIdx _ _ (fun i p => ⟨toUint8ClampR_le _, toUint8ClampR_le _, toUint8ClampR_le _⟩)
  · exact hmapIdx _ _ (fun i p => ⟨toUint8Clamp_le _, toUint8Clamp_le _, toUint8Clamp_le _⟩)
/-! ## Claim C7 -/

theorem map_alphas (l : List Pixel) (f : Pixel → Pixel) (hf : ∀ p, (f p).a = p.a) :
    (l.map f).map Pixel.a = l.map Pixel.a := by
  rw [List.map_map]
  apply List.map_congr_left
  intro p _
  exact hf p

theorem mapIdx_alphas (l : List Pixel) (f : ℕ → Pixel → Pixel)
    (hf : ∀ i p, (f i p).a = p.a) : (l.mapIdx f).map Pixel.a = l.map Pixel.a := by
  rw [List.mapIdx_eq_ofFn, List.map_ofFn]
  conv_rhs => rw [← List.ofFn_get l, List.map_ofFn]
  congr 1
  funext i
  exact hf _ _

/-- The data produced by `convolute`, re-indexed over the flat range:
output pixel `i` sits at column `i % width`, row `i / width`. -/
theorem convolute_data (w h : ℕ) (d : List Pixel) (weights : List ℚ) :
    (convolute ⟨w, h, d⟩ weights).data =
      (List.range (h * w)).map (fun i =>
        (⟨toUint8Clamp (max 0 (min 255
            (convAccum d w h weights (Nat.sqrt weights.length) (i % w) (i / w) Pixel.r))),
          toUint8Clamp (max 0 (min 255
            (convAccum d w h weights (Nat.sqrt weights.length) (i % w) (i / w) Pixel.g))),
          toUint8Clamp (max 0 (min 255
            (convAccum d w h weights (Nat.sqrt weights.length) (i % w) (i / w) Pixel.b))),
          (d.getD (i / w * w + i % w) ⟨0, 0, 0, 0⟩).a⟩ : Pixel)) :=
  range_flatMap_grid h w _

theorem convolute_alphas :
    ∀ (buf : Buffer) (weights : List ℚ), buf.data.length = buf.width * buf.height →
      alphas (convolute buf weights) = alphas buf := by
  intro buf weights hlen
  obtain ⟨w, h, d⟩ := buf
  have hlen' : d.length = w * h := hlen
  show ((convolute ⟨w, h, d⟩ weights).data).map Pixel.a = d.map Pixel.a
  rw [convolute_data, List.map_map]
  calc (List.range (h * w)).map (Pixel.a ∘ _)
      = (List.range (h * w)).map (fun i => (d.getD i ⟨0, 0, 0, 0⟩).a) := by
        apply List.map_congr_left
        intro i _
        show (d.getD (i / w * w + i % w) ⟨0, 0, 0, 0⟩).a = (d.getD i ⟨0, 0, 0, 0⟩).a
        rw [Nat.div_add_mod']
    _ = d.map Pixel.a := by
        rw [Nat.mul_comm h w, ← hlen']
        exact map_getD_range d Pixel.a _

/-- C7: every operator of the engine leaves the alpha channel of every
pixel unchanged — the per-pixel operators never write byte `i + 3`, and
`convolute` copies the source alpha at each output position. -/
theorem all_ops_preserve_alpha :
    ∀ (buf : Buffer), buf.data.length = buf.width * buf.height →
    ∀ (adjS adjB adjH adjSat adjC amtSharp amtNoise : ℚ) (col : ℚ × ℚ × ℚ × ℚ)
      (mul : ℚ × ℚ × ℚ) (weights : List ℚ) (amtVig : ℝ) (rand : ℕ → ℚ),
      alphas (grayscale buf) = alphas buf ∧ alphas (sepia buf adjS) = alphas buf ∧
      alphas (invert buf) = alphas buf ∧ alphas (brightness buf adjB) = alphas buf ∧
      alphas (hueSaturation buf adjH) = alphas buf ∧
      alphas (saturation buf adjSat) = alphas buf ∧
      alphas (contrast buf adjC) = alphas buf ∧
      alphas (colorFilter buf col) = alphas buf ∧
      alphas (rgbAdjust buf mul) = alphas buf ∧
      alphas (convolute buf weights) = alphas buf ∧
      alphas (sharpen buf amtSharp) = alphas buf ∧
      alphas (vignette buf amtVig) = alphas buf ∧
      alphas (noise buf amtNoise rand) = alphas buf := by
  intro buf hlen adjS adjB adjH adjSat adjC amtSharp amtNoise col mul weights amtVig rand
  refine ⟨map_alphas _ _ (fun p => writeRGB_a _ _ _ _),
    map_alphas _ _ (fun p => writeRGB_a _ _ _ _),
    map_alphas _ _ (fun p => writeRGB_a _ _ _ _),
    map_alphas _ _ (fun p => writeRGB_a _ _ _ _),
    map_alphas _ _ (fun p => writeRGB_a _ _ _ _),
    map_alphas _ _ (fun p => writeRGB_a _ _ _ _),
    map_alphas _ _ (fun p => writeRGB_a _ _ _ _),
    map_alphas _ _ (fun p => writeRGB_a _ _ _ _),
    map_alphas _ _ (fun p => writeRGB_a _ _ _ _),
    convolute_alphas buf weights hlen,
    convolute_alphas buf _ hlen, mapIdx_alphas _ _ (fun i p => rfl),
    mapIdx_alphas _ _ (fun i p => writeRGB_a _ _ _ _)⟩

/-- Witness for C7: the grayscale and convolute conjuncts on a concrete
2×2 buffer. -/
theorem all_ops_preserve_alpha_witness :
    alphas (grayscale ⟨2, 2, [⟨1, 2, 3, 4⟩, ⟨5, 6, 7, 8⟩, ⟨9, 10, 11, 12⟩, ⟨13, 14, 15, 16⟩]⟩) =
        alphas ⟨2, 2, [⟨1, 2, 3, 4⟩, ⟨5, 6, 7, 8⟩, ⟨9, 10, 11, 12⟩, ⟨13, 14, 15, 16⟩]⟩ ∧
      alphas (convolute ⟨2, 2, [⟨1, 2, 3, 4⟩, ⟨5, 6, 7, 8⟩, ⟨9, 10, 11, 12⟩, ⟨13, 14, 15, 16⟩]⟩
          [0, 0, 0, 0, 1, 0, 0, 0, 0]) =
        alphas ⟨2, 2, [⟨1, 2, 3, 4⟩, ⟨5, 6, 7, 8⟩, ⟨9, 10, 11, 12⟩, ⟨13, 14, 15, 16⟩]⟩ := by
  have h := all_ops_preserve_alpha
    ⟨2, 2, [⟨1, 2, 3, 4⟩, ⟨5, 6, 7, 8⟩, ⟨9, 10, 11, 12⟩, ⟨13, 14, 15, 16⟩]⟩ rfl
    0 0 0 0 0 0 0 (0, 0, 0, 0) (1, 1, 1) [0, 0, 0, 0, 1, 0, 0, 0, 0] 1 (fun _ => 0)
  exact ⟨h.1, h.2.2.2.2.2.2.2.2.2.1⟩
/-! ## Claim C6 -/

theorem convAccum_eq_spec (d : List Pixel) (w h k : ℕ) (weights : List ℚ)
    (x y : ℕ) (ch : Pixel → ℕ) :
    convAccum d w h weights k x y ch = convSpecSum ⟨w, h, d⟩ weights k x y ch := by
  unfold convAccum convSpecSum
  dsimp only
  simp only [sum_map_range]
  rw [← Finset.sum_product', Finset.sum_filter]
  apply Finset.sum_congr rfl
  intro p _
  split_ifs <;> ring

/-- C6: for every buffer whose data fills its `width × height` grid and
every square kernel of odd side `k`, each output pixel of `convolute`
has R, G, B equal to the clamped spec sum over exactly the in-bounds
window positions (out-of-bounds contributing zero — no edge clamping or
wrapping), and alpha equal to the source alpha at the same position.
All channel reads in the sum come from the input buffer, i.e. the
pre-convolution snapshot, never from already-written output. -/
theorem convolute_matches_spec :
    ∀ (buf : Buffer) (weights : List ℚ) (k : ℕ),
      Odd k → weights.length = k * k →
      buf.data.length = buf.width * buf.height →
      ∀ (y x : ℕ), y < buf.height → x < buf.width →
        (convolute buf weights).data.getD (y * buf.width + x) ⟨0, 0, 0, 0⟩ =
          ⟨toUint8Clamp (max 0 (min 255 (convSpecSum buf weights k x y Pixel.r))),
           toUint8Clamp (max 0 (min 255 (convSpecSum buf weights k x y Pixel.g))),
           toUint8Clamp (max 0 (min 255 (convSpecSum buf weights k x y Pixel.b))),
           (buf.data.getD (y * buf.width + x) ⟨0, 0, 0, 0⟩).a⟩ := by
  intro buf weights k hodd hwlen hlen y x hy hx
  obtain ⟨w, h, d⟩ := buf
  have hy' : y < h := hy
  have hx' : x < w := hx
  have hwpos : 0 < w := Nat.pos_of_ne_zero (by omega)
  have hk : Nat.sqrt weights.length = k := by rw [hwlen]; exact Nat.sqrt_eq k
  have hix : y * w + x < h * w := by
    calc y * w + x < y * w + w := Nat.add_lt_add_left hx' _
    _ = (y + 1) * w := by ring
    _ ≤ h * w := Nat.mul_le_mul_right w (Nat.succ_le_of_lt hy')
  rw [convolute_data, getD_map_range _ _ _ _ hix]
  have hdiv : (y * w + x) / w = y := by
    rw [Nat.add_comm, Nat.mul_comm, Nat.add_mul_div_left x y hwpos,
      Nat.div_eq_of_lt hx']
    omega
  have hmod : (y * w + x) % w = x := by
    rw [Nat.add_comm, Nat.mul_comm, Nat.add_mul_mod_self_left, Nat.mod_eq_of_lt hx']
  rw [hdiv, hmod, hk]
  simp only [Pixel.mk.injEq]
  exact ⟨by rw [convAccum_eq_spec], by rw [convAccum_eq_spec], by rw [convAccum_eq_spec], trivial⟩
/-- Witness for C6: the identity 3×3 kernel on a 2×2 buffer, at output
position `(x, y) = (0, 1)`. -/
theorem convolute_matches_spec_witness :
    (convolute ⟨2, 2, [⟨1, 2, 3, 4⟩, ⟨5, 6, 7, 8⟩, ⟨9, 10, 11, 12⟩, ⟨13, 14, 15, 16⟩]⟩
        [0, 0, 0, 0, 1, 0, 0, 0, 0]).data.getD (1 * 2 + 0) ⟨0, 0, 0, 0⟩ =
      ⟨toUint8Clamp (max 0 (min 255 (convSpecSum
          ⟨2, 2, [⟨1, 2, 3, 4⟩, ⟨5, 6, 7, 8⟩, ⟨9, 10, 11, 12⟩, ⟨13, 14, 15, 16⟩]⟩
          [0, 0, 0, 0, 1, 0, 0, 0, 0] 3 0 1 Pixel.r))),
       toUint8Clamp (max 0 (min 255 (convSpecSum
          ⟨2, 2, [⟨1, 2, 3, 4⟩, ⟨5, 6, 7, 8⟩, ⟨9, 10, 11, 12⟩, ⟨13, 14, 15, 16⟩]⟩
          [0, 0, 0, 0, 1, 0, 0, 0, 0] 3 0 1 Pixel.g))),
       toUint8Clamp (max 0 (min 255 (convSpecSum
          ⟨2, 2, [⟨1, 2, 3, 4⟩, ⟨5, 6, 7, 8⟩, ⟨9, 10, 11, 12⟩, ⟨13, 14, 15, 16⟩]⟩
          [0, 0, 0, 0, 1, 0, 0, 0, 0] 3 0 1 Pixel.b))),
       (([⟨1, 2, 3, 4⟩, ⟨5, 6, 7, 8⟩, ⟨9, 10, 11, 12⟩, ⟨13, 14, 15, 16⟩] :
          List Pixel).getD (1 * 2 + 0) ⟨0, 0, 0, 0⟩).a⟩ :=
  convolute_matches_spec
    ⟨2, 2, [⟨1, 2, 3, 4⟩, ⟨5, 6, 7, 8⟩, ⟨9, 10, 11, 12⟩, ⟨13, 14, 15, 16⟩]⟩
    [0, 0, 0, 0, 1, 0, 0, 0, 0] 3 ⟨1, by norm_num⟩ rfl rfl 1 0
    (by norm_num) (by norm_num)

/-! ## Claim C8 -/

/-- `HSVtoRGB` evaluated by sector: when `h * 6 = i + f` with
`0 ≤ i < 6` and fractional part `0 ≤ f < 1`, the floor is `i`, the JS
remainder selects case `i`, and the output is the corresponding
`(v, t, p)`-permutation. -/
theorem HSVtoRGB_sector (h s v : ℚ) (i : ℤ) (f : ℚ) (hi0 : 0 ≤ i) (hi : i < 6)
    (hh : h * 6 = (i : ℚ) + f) (hf0 : 0 ≤ f) (hf1 : f < 1) :
    HSVtoRGB h s v = (
      if i = 0 then (v * 255, v * (1 - (1 - f) * s) * 255, v * (1 - s) * 255)
      else if i = 1 then (v * (1 - f * s) * 255, v * 255, v * (1 - s) * 255)
      else if i = 2 then (v * (1 - s) * 255, v * 255, v * (1 - (1 - f) * s) * 255)
      else if i = 3 then (v * (1 - s) * 255, v * (1 - f * s) * 255, v * 255)
      else if i = 4 then (v * (1 - (1 - f) * s) * 255, v * (1 - s) * 255, v * 255)
      else (v * 255, v * (1 - s) * 255, v * (1 - f * s) * 255)) := by
  have h0 : ⌊f⌋ = 0 := Int.floor_eq_zero_iff.mpr ⟨hf0, hf1⟩
  have hfl : ⌊h * 6⌋ = i := by
    rw [hh, add_comm, Int.floor_add_int, h0, zero_add]
  have hfrac : h * 6 - ((i : ℤ) : ℚ) = f := by rw [hh]; ring
  interval_cases i
  · simp only [HSVtoRGB, hfl, hfrac]
    rw [show Int.tmod (0 : ℤ) 6 = 0 from by decide]
    norm_num
  · simp only [HSVtoRGB, hfl, hfrac]
    rw [show Int.tmod (1 : ℤ) 6 = 1 from by decide]
    norm_num
  · simp only [HSVtoRGB, hfl, hfrac]
    rw [show Int.tmod (2 : ℤ) 6 = 2 from by decide]
    norm_num
  · simp only [HSVtoRGB, hfl, hfrac]
    rw [show Int.tmod (3 : ℤ) 6 = 3 from by decide]
    norm_num
  · simp only [HSVtoRGB, hfl, hfrac]
    rw [show Int.tmod (4 : ℤ) 6 = 4 from by decide]
    norm_num
  · simp only [HSVtoRGB, hfl, hfrac]
    rw [show Int.tmod (5 : ℤ) 6 = 5 from by decide]
    norm_num
/-- In exact arithmetic the RGB→HSV→RGB round trip of `colorUtils.ts`
is the identity on every non-achromatic nonnegative input, ties at the
maximum channel included (each tie lands in a sector whose formulas
still reproduce the input). -/
theorem rgb_hsv_rgb_exact (r0 g0 b0 : ℚ) (hr : 0 ≤ r0) (hg : 0 ≤ g0) (hb : 0 ≤ b0)
    (hne : ¬(r0 = g0 ∧ g0 = b0)) :
    HSVtoRGB (RGBtoHSV r0 g0 b0).1 (RGBtoHSV r0 g0 b0).2.1 (RGBtoHSV r0 g0 b0).2.2 =
      (r0, g0, b0) := by
  simp only [RGBtoHSV]
  set rr := r0 / 255 with hrr
  set gg := g0 / 255 with hgg
  set bb := b0 / 255 with hbb
  have hne' : ¬(rr = gg ∧ gg = bb) := by
    rintro ⟨e1, e2⟩
    apply hne
    rw [hrr, hgg] at e1
    rw [hgg, hbb] at e2
    constructor
    · field_simp at e1; exact e1
    · field_simp at e2; exact e2
  have hrpos : 0 ≤ rr := by rw [hrr]; positivity
  have hgpos : 0 ≤ gg := by rw [hgg]; positivity
  have hbpos : 0 ≤ bb := by rw [hbb]; positivity
  set mx := max rr (max gg bb) with hmxdef
  set mn := min rr (min gg bb) with hmndef
  have hrmx : rr ≤ mx := le_max_left _ _
  have hgmx : gg ≤ mx := le_trans (le_max_left gg bb) (le_max_right rr _)
  have hbmx : bb ≤ mx := le_trans (le_max_right gg bb) (le_max_right rr _)
  have hmnr : mn ≤ rr := min_le_left _ _
  have hmng : mn ≤ gg := le_trans (min_le_right _ _) (min_le_left _ _)
  have hmnb : mn ≤ bb := le_trans (min_le_right _ _) (min_le_right _ _)
  have hlt : mn < mx := by
    rcases lt_or_le mn mx with hc | hc
    · exact hc
    · exfalso
      apply hne'
      constructor <;> linarith
  have hmn0 : 0 ≤ mn := le_min hrpos (le_min hgpos hbpos)
  have hmxpos : 0 < mx := lt_of_le_of_lt hmn0 hlt
  have hd0 : (0 : ℚ) < mx - mn := by linarith
  have hdne : mx - mn ≠ 0 := ne_of_gt hd0
  have hmxne : mx ≠ 0 := ne_of_gt hmxpos
  have e2 : mx * (1 - (mx - mn) / mx) = mn := by field_simp
  rw [if_neg (ne_of_gt hlt), if_neg hmxne]
  by_cases h1 : mx = rr
  · rw [if_pos h1]
    by_cases h2 : gg < bb
    · -- max at red, g < b: sector 5
      rw [if_pos h2]
      have hmneq : mn = gg := by
        rw [hmndef, min_eq_left (le_of_lt h2), min_eq_right (by linarith)]
      rw [HSVtoRGB_sector _ _ _ 5 ((gg - bb) / (mx - mn) + 1) (by norm_num) (by norm_num)
        (by push_cast; ring)
        (by
          have hdiv : -1 ≤ (gg - bb) / (mx - mn) := by
            rw [le_div_iff₀ hd0]
            linarith
          linarith)
        (by
          have hdiv : (gg - bb) / (mx - mn) < 0 :=
            div_neg_of_neg_of_pos (by linarith) hd0
          linarith)]
      norm_num
      have e3 : mx * (1 - ((gg - bb) / (mx - mn) + 1) * ((mx - mn) / mx)) = bb - gg + mn := by
        field_simp
        ring
      refine ⟨?_, ?_, ?_⟩
      · rw [h1, hrr]; ring
      · rw [e2, hmneq, hgg]; ring
      · rw [e3, hmneq, hbb]; ring
    · -- max at red, b ≤ g
      rw [if_neg h2]
      have hmneq : mn = bb := by
        rw [hmndef, min_eq_right (not_lt.mp h2), min_eq_right (by linarith)]
      by_cases h5 : gg - bb < mx - mn
      · -- strict: sector 0
        rw [HSVtoRGB_sector _ _ _ 0 ((gg - bb) / (mx - mn)) (by norm_num) (by norm_num)
          (by push_cast; ring)
          (div_nonneg (by linarith [not_lt.mp h2]) (le_of_lt hd0))
          ((div_lt_one hd0).mpr h5)]
        norm_num
        have e4 : mx * (1 - (1 - (gg - bb) / (mx - mn)) * ((mx - mn) / mx)) =
            mn + (gg - bb) := by
          field_simp
          ring
        refine ⟨?_, ?_, ?_⟩
        · rw [h1, hrr]; ring
        · rw [e4, hmneq, hgg]; ring
        · rw [e2, hmneq, hbb]; ring
      · -- tie g = max: sector 1 with f = 0
        have heq : gg - bb = mx - mn := le_antisymm (by linarith) (not_lt.mp h5)
        rw [HSVtoRGB_sector _ _ _ 1 0 (by norm_num) (by norm_num)
          (by rw [heq, div_self hdne]; norm_num) le_rfl (by norm_num)]
        norm_num
        refine ⟨?_, ?_, ?_⟩
        · rw [h1, hrr]; ring
        · rw [show mx = gg from by linarith, hgg]; ring
        · rw [e2, hmneq, hbb]; ring
  · rw [if_neg h1]
    have hrlt : rr < mx := lt_of_le_of_ne hrmx (fun e => h1 e.symm)
    by_cases h3 : mx = gg
    · rw [if_pos h3]
      by_cases h4 : bb < rr
      · -- max at green, b < r: sector 1
        have hmneq : mn = bb := by
          rw [hmndef, min_eq_right (show bb ≤ gg by linarith), min_eq_right (le_of_lt h4)]
        rw [HSVtoRGB_sector _ _ _ 1 ((bb - rr) / (mx - mn) + 1) (by norm_num) (by norm_num)
          (by push_cast; ring)
          (by
            have hdiv : -1 ≤ (bb - rr) / (mx - mn) := by
              rw [le_div_iff₀ hd0]
              linarith
            linarith)
          (by
            have hdiv : (bb - rr) / (mx - mn) < 0 :=
              div_neg_of_neg_of_pos (by linarith) hd0
            linarith)]
        norm_num
        have e5 : mx * (1 - ((bb - rr) / (mx - mn) + 1) * ((mx - mn) / mx)) =
            rr - bb + mn := by
          field_simp
          ring
        refine ⟨?_, ?_, ?_⟩
        · rw [e5, hmneq, hrr]; ring
        · rw [h3, hgg]; ring
        · rw [e2, hmneq, hbb]; ring
      · have hmneq : mn = rr := by
          rw [hmndef, min_eq_left (le_min (by linarith) (not_lt.mp h4))]
        by_cases h5 : bb - rr < mx - mn
        · -- max at green, r ≤ b < max: sector 2
          rw [HSVtoRGB_sector _ _ _ 2 ((bb - rr) / (mx - mn)) (by norm_num) (by norm_num)
            (by push_cast; ring)
            (div_nonneg (by linarith [not_lt.mp h4]) (le_of_lt hd0))
            ((div_lt_one hd0).mpr h5)]
          norm_num
          have e6 : mx * (1 - (1 - (bb - rr) / (mx - mn)) * ((mx - mn) / mx)) =
              mn + (bb - rr) := by
            field_simp
            ring
          refine ⟨?_, ?_, ?_⟩
          · rw [e2, hmneq, hrr]; ring
          · rw [h3, hgg]; ring
          · rw [e6, hmneq, hbb]; ring
        · -- tie b = max: sector 3 with f = 0
          have heq : bb - rr = mx - mn := le_antisymm (by linarith) (not_lt.mp h5)
          rw [HSVtoRGB_sector _ _ _ 3 0 (by norm_num) (by norm_num)
            (by rw [heq, div_self hdne]; norm_num) le_rfl (by norm_num)]
          norm_num
          refine ⟨?_, ?_, ?_⟩
          · rw [e2, hmneq, hrr]; ring
          · rw [h3, hgg]; ring
          · rw [show mx = bb from by linarith, hbb]; ring
    · rw [if_neg h3]
      have hglt : gg < mx := lt_of_le_of_ne hgmx (fun e => h3 e.symm)
      have hmx_bb : mx = bb := by
        have hc := max_choice rr (max gg bb)
        rw [← hmxdef] at hc
        rcases hc with hc | hc
        · exact absurd hc h1
        · rcases max_choice gg bb with h2c | h2c
          · rw [h2c] at hc
            exact absurd hc h3
          · rw [h2c] at hc
            exact hc
      by_cases h4 : rr < gg
      · -- max at blue, r < g: sector 3
        have hmneq : mn = rr := by
          rw [hmndef, min_eq_left (le_min (le_of_lt h4) (by linarith))]
        rw [HSVtoRGB_sector _ _ _ 3 ((rr - gg) / (mx - mn) + 1) (by norm_num) (by norm_num)
          (by push_cast; ring)
          (by
            have hdiv : -1 ≤ (rr - gg) / (mx - mn) := by
              rw [le_div_iff₀ hd0]
              linarith
            linarith)
          (by
            have hdiv : (rr - gg) / (mx - mn) < 0 :=
              div_neg_of_neg_of_pos (by linarith) hd0
            linarith)]
        norm_num
        have e7 : mx * (1 - ((rr - gg) / (mx - mn) + 1) * ((mx - mn) / mx)) =
            gg - rr + mn := by
          field_simp
          ring
        refine ⟨?_, ?_, ?_⟩
        · rw [e2, hmneq, hrr]; ring
        · rw [e7, hmneq, hgg]; ring
        · rw [hmx_bb, hbb]; ring
      · -- max at blue, g ≤ r: sector 4
        have hmneq : mn = gg := by
          rw [hmndef, min_eq_left (show gg ≤ bb by linarith), min_eq_right (not_lt.mp h4)]
        rw [HSVtoRGB_sector _ _ _ 4 ((rr - gg) / (mx - mn)) (by norm_num) (by norm_num)
          (by push_cast; ring)
          (div_nonneg (by linarith [not_lt.mp h4]) (le_of_lt hd0))
          ((div_lt_one hd0).mpr (by linarith))]
        norm_num
        have e8 : mx * (1 - (1 - (rr - gg) / (mx - mn)) * ((mx - mn) / mx)) =
            mn + (rr - gg) := by
          field_simp
          ring
        refine ⟨?_, ?_, ?_⟩
        · rw [e8, hmneq, hrr]; ring
        · rw [e2, hmneq, hgg]; ring
        · rw [hmx_bb, hbb]; ring
/-- C8: for every integer RGB triple with channels in `[0, 255]` that
are not all equal, converting with `RGBtoHSV`, back with `HSVtoRGB`,
and rounding each channel to the nearest integer lands within 1 of the
original channel — in fact the round trip is exact, so the distance
is 0. -/
theorem rgb_hsv_roundtrip_within_one :
    ∀ (r g b : ℕ), r ≤ 255 → g ≤ 255 → b ≤ 255 → ¬(r = g ∧ g = b) →
      (jsRound (HSVtoRGB (RGBtoHSV r g b).1 (RGBtoHSV r g b).2.1
          (RGBtoHSV r g b).2.2).1 - (r : ℤ)).natAbs ≤ 1 ∧
      (jsRound (HSVtoRGB (RGBtoHSV r g b).1 (RGBtoHSV r g b).2.1
          (RGBtoHSV r g b).2.2).2.1 - (g : ℤ)).natAbs ≤ 1 ∧
      (jsRound (HSVtoRGB (RGBtoHSV r g b).1 (RGBtoHSV r g b).2.1
          (RGBtoHSV r g b).2.2).2.2 - (b : ℤ)).natAbs ≤ 1 := by
  intro r g b hr hg hb hne
  have hne' : ¬((r : ℚ) = g ∧ (g : ℚ) = b) := by
    rintro ⟨e1, e2⟩
    exact hne ⟨Nat.cast_injective e1, Nat.cast_injective e2⟩
  have hex := rgb_hsv_rgb_exact r g b (by positivity) (by positivity) (by positivity) hne'
  rw [hex]
  refine ⟨?_, ?_, ?_⟩ <;> simp [jsRound_natCast]

/-- Witness for C8 at the triple `(10, 20, 30)`. -/
theorem rgb_hsv_roundtrip_within_one_witness :
    (jsRound (HSVtoRGB (RGBtoHSV ((10 : ℕ) : ℚ) ((20 : ℕ) : ℚ) ((30 : ℕ) : ℚ)).1
        (RGBtoHSV ((10 : ℕ) : ℚ) ((20 : ℕ) : ℚ) ((30 : ℕ) : ℚ)).2.1
        (RGBtoHSV ((10 : ℕ) : ℚ) ((20 : ℕ) : ℚ) ((30 : ℕ) : ℚ)).2.2).1 -
      ((10 : ℕ) : ℤ)).natAbs ≤ 1 ∧
    (jsRound (HSVtoRGB (RGBtoHSV ((10 : ℕ) : ℚ) ((20 : ℕ) : ℚ) ((30 : ℕ) : ℚ)).1
        (RGBtoHSV ((10 : ℕ) : ℚ) ((20 : ℕ) : ℚ) ((30 : ℕ) : ℚ)).2.1
        (RGBtoHSV ((10 : ℕ) : ℚ) ((20 : ℕ) : ℚ) ((30 : ℕ) : ℚ)).2.2).2.1 -
      ((20 : ℕ) : ℤ)).natAbs ≤ 1 ∧
    (jsRound (HSVtoRGB (RGBtoHSV ((10 : ℕ) : ℚ) ((20 : ℕ) : ℚ) ((30 : ℕ) : ℚ)).1
        (RGBtoHSV ((10 : ℕ) : ℚ) ((20 : ℕ) : ℚ) ((30 : ℕ) : ℚ)).2.1
        (RGBtoHSV ((10 : ℕ) : ℚ) ((20 : ℕ) : ℚ) ((30 : ℕ) : ℚ)).2.2).2.2 -
      ((30 : ℕ) : ℤ)).natAbs ≤ 1 :=
  rgb_hsv_roundtrip_within_one 10 20 30 (by norm_num) (by norm_num) (by norm_num)
    (by decide)

end PhotoEnhancer
